import Mathlib

/-!
Verification of the Mondeto signaling relay session.

The repository holds two duplicated implementations of the relay
session: the `Session` class in `src/app.ts` and the `Session` class in
`src/app.js`.  The namespace `App` below is a shallow embedding of the
TypeScript version, `AppJS` of the JavaScript version.  Connections are
identified by abstract handles (`Nat`); incoming text frames are
embedded at the level of their `JSON.parse` result; `ws.send` of a
serialized object is modelled as sending the structured value.

Exceptions are explicit: the body of each `try` block is a function
into `Except Unit`, the surrounding `catch` turns every body exception
back into a normal return (logging is unobservable), and the dispatch
function `stepE` is `Except`-valued so that an exception escaping a
handler frame would surface as `.error`.
-/

/-- JSON values as produced by `JSON.parse`: null, booleans, numbers,
strings and objects (field lists in insertion order).  Arrays are not
modelled; no claim concerns them. -/
inductive JValue where
  | null : JValue
  | bool (b : Bool) : JValue
  | num (n : Int) : JValue
  | str (s : String) : JValue
  | obj (fields : List (String × JValue)) : JValue
deriving Repr

mutual

/-- Decidable equality on JSON values (the automatic derivation does not
handle the nested field list). -/
def JValue.decEq : (a b : JValue) → Decidable (a = b)
  | .null, .null => .isTrue rfl
  | .bool x, .bool y =>
      if h : x = y then .isTrue (by rw [h]) else .isFalse (fun he => h (JValue.bool.inj he))
  | .num x, .num y =>
      if h : x = y then .isTrue (by rw [h]) else .isFalse (fun he => h (JValue.num.inj he))
  | .str x, .str y =>
      if h : x = y then .isTrue (by rw [h]) else .isFalse (fun he => h (JValue.str.inj he))
  | .obj f, .obj g =>
      match JValue.decEqFields f g with
      | .isTrue h => .isTrue (by rw [h])
      | .isFalse h => .isFalse (fun he => h (JValue.obj.inj he))
  | .null, .bool _ => .isFalse (fun h => nomatch h)
  | .null, .num _ => .isFalse (fun h => nomatch h)
  | .null, .str _ => .isFalse (fun h => nomatch h)
  | .null, .obj _ => .isFalse (fun h => nomatch h)
  | .bool _, .null => .isFalse (fun h => nomatch h)
  | .bool _, .num _ => .isFalse (fun h => nomatch h)
  | .bool _, .str _ => .isFalse (fun h => nomatch h)
  | .bool _, .obj _ => .isFalse (fun h => nomatch h)
  | .num _, .null => .isFalse (fun h => nomatch h)
  | .num _, .bool _ => .isFalse (fun h => nomatch h)
  | .num _, .str _ => .isFalse (fun h => nomatch h)
  | .num _, .obj _ => .isFalse (fun h => nomatch h)
  | .str _, .null => .isFalse (fun h => nomatch h)
  | .str _, .bool _ => .isFalse (fun h => nomatch h)
  | .str _, .num _ => .isFalse (fun h => nomatch h)
  | .str _, .obj _ => .isFalse (fun h => nomatch h)
  | .obj _, .null => .isFalse (fun h => nomatch h)
  | .obj _, .bool _ => .isFalse (fun h => nomatch h)
  | .obj _, .num _ => .isFalse (fun h => nomatch h)
  | .obj _, .str _ => .isFalse (fun h => nomatch h)

/-- Decidable equality on object field lists. -/
def JValue.decEqFields : (f g : List (String × JValue)) → Decidable (f = g)
  | [], [] => .isTrue rfl
  | [], _ :: _ => .isFalse (fun h => nomatch h)
  | _ :: _, [] => .isFalse (fun h => nomatch h)
  | (k, v) :: f, (k', v') :: g =>
      if hk : k = k' then
        match JValue.decEq v v', JValue.decEqFields f g with
        | .isTrue hv, .isTrue hf => .isTrue (by rw [hk, hv, hf])
        | .isFalse hv, _ =>
            .isFalse (fun he => by
              injection he with h1 h2
              exact hv (congrArg Prod.snd h1))
        | _, .isFalse hf =>
            .isFalse (fun he => by
              injection he with h1 h2
              exact hf h2)
      else
        .isFalse (fun he => by
          injection he with h1 h2
          exact hk (congrArg Prod.fst h1))

end

instance : DecidableEq JValue := JValue.decEq

/-- Result of `JSON.parse` on an incoming text frame: either a thrown
parse exception or a JSON value. -/
inductive Parsed where
  | parseError : Parsed
  | value (v : JValue) : Parsed
deriving Repr, DecidableEq

/-- Property read `fields[k]` on an object field list (first binding wins;
`JSON.parse` never produces duplicate keys). -/
def lookupField (k : String) : List (String × JValue) → Option JValue
  | [] => none
  | (k', v) :: rest => if k' = k then some v else lookupField k rest

/-- Rest-destructuring `const \x7b nodeID, ...rest \x7d = v` drops the named
key and keeps every other field in order. -/
def removeField (k : String) (fields : List (String × JValue)) : List (String × JValue) :=
  fields.filter (fun p => ¬ p.1 = k)

/-- Property assignment `msg[k] = v`: replaces the value in place when the
key exists, appends the binding otherwise (JS object semantics). -/
def setField (k : String) (v : JValue) (fields : List (String × JValue)) :
    List (String × JValue) :=
  if fields.any (fun p => p.1 = k) then
    fields.map (fun p => if p.1 = k then (k, v) else p)
  else fields ++ [(k, v)]

/-- `Map.has(k)` for a JS `Map` with number keys, queried with a parsed
JSON number: SameValueZero comparison, no coercion. -/
def mapHas (m : List (Nat × Nat)) (k : Int) : Bool :=
  m.any (fun p => (p.1 : Int) = k)

/-- `Map.get(k)`: the connection registered under number key `k`. -/
def mapGet (m : List (Nat × Nat)) (k : Int) : Option Nat :=
  (m.find? (fun p => (p.1 : Int) = k)).map (fun p => p.2)

/-- `Map.set(k, v)`: overwrite in place when present, append otherwise. -/
def mapSet (m : List (Nat × Nat)) (k v : Nat) : List (Nat × Nat) :=
  if m.any (fun p => p.1 = k) then
    m.map (fun p => if p.1 = k then (k, v) else p)
  else m ++ [(k, v)]

/-- `Map.delete(k)`. -/
def mapDelete (m : List (Nat × Nat)) (k : Nat) : List (Nat × Nat) :=
  m.filter (fun p => ¬ p.1 = k)

/-- Observable effects a handler performs on connections: `send` is
`ws.send` of a serialized JSON value, `regHandlers` is the pair of
`ws.on('message')`/`ws.on('close')` registrations an admission installs. -/
inductive Effect where
  | send (conn : Nat) (msg : JValue) : Effect
  | regHandlers (conn : Nat) : Effect
deriving Repr, DecidableEq

/-- Inbound events dispatched to the session: connection events on the
two pools, message/close events fired by registered handlers (the
`nodeID` of a client event is the identifier captured by the closure at
admission). -/
inductive Event where
  | serverConnect (ws : Nat) : Event
  | clientConnect (ws : Nat) : Event
  | serverMessage (d : Parsed) : Event
  | serverClose : Event
  | clientMessage (nodeID : Nat) (d : Parsed) : Event
  | clientClose (nodeID : Nat) : Event
deriving Repr, DecidableEq

namespace App

/-- `const serverNodeID = 0` (src/app.ts line 6). -/
def serverNodeID : Nat := 0

/-- Mutable state of the TS `Session` class (src/app.ts lines 11-29):
the coordinator slot `serverWS`, the participant registry `clients`
(insertion-ordered, as a JS `Map`), the identifier counter `nextNodeID`,
and the `iceServerUrl` field set by the constructor. -/
structure Session where
  serverWS : Option Nat
  clients : List (Nat × Nat)
  nextNodeID : Nat
  iceServerUrl : String
deriving Repr, DecidableEq

/-- The constructor (src/app.ts lines 20-29). -/
def Session.init (url : String) : Session :=
  { serverWS := none, clients := [], nextNodeID := serverNodeID + 1, iceServerUrl := url }

/-- `handleServerConnection` (src/app.ts lines 39-58).  The `hello` sent
on line 57 references the module-level binding `iceServerUrl`
(src/app.ts line 123), passed here as `g`, not the field
`this.iceServerUrl`. -/
def handleServerConnection (g : String) (s : Session) (ws : Nat) : Session × List Effect :=
  match s.serverWS with
  | some _ =>
      (s, [.send ws (.obj [("type", .str "error")])])
  | none =>
      ({ s with serverWS := some ws },
       [.regHandlers ws,
        .send ws (.obj [("type", .str "hello"),
                        ("nodeID", .num (serverNodeID : Int)),
                        ("iceServerUrl", .str g)])])

/-- Body of the `try` block of `handleServerMessage` (src/app.ts lines
62-68).  `JSON.parse` throws on a malformed frame; destructuring `null`
throws `TypeError`; destructuring a primitive yields an undefined
`nodeID` and an empty rest.  `Map.has` on a non-number or unregistered
`nodeID` is false and the message is dropped. -/
def handleServerMessageBody (s : Session) (d : Parsed) : Except Unit (Session × List Effect) :=
  match d with
  | .parseError => .error ()
  | .value v =>
    match v with
    | .null => .error ()
    | .obj fields =>
        match lookupField "nodeID" fields with
        | some (.num n) =>
            if mapHas s.clients n then
              match mapGet s.clients n with
              | some c => .ok (s, [.send c (.obj (removeField "nodeID" fields))])
              | none => .ok (s, [])
            else .ok (s, [])
        | _ => .ok (s, [])
    | _ => .ok (s, [])

/-- `handleServerMessage` (src/app.ts lines 60-72): the `catch` clause
only logs, so every body exception becomes a normal return with no
effect. -/
def handleServerMessage (s : Session) (d : Parsed) : Session × List Effect :=
  match handleServerMessageBody s d with
  | .ok r => r
  | .error _ => (s, [])

/-- `handleClientConnection` (src/app.ts lines 74-98).  On success the
code sends `hello` to the client (line 89, using `this.iceServerUrl`),
then `clientConnected` to the coordinator (line 91), then registers the
message/close handlers (lines 93-97). -/
def handleClientConnection (s : Session) (ws : Nat) : Session × List Effect :=
  match s.serverWS with
  | none =>
      (s, [.send ws (.obj [("type", .str "error")])])
  | some srv =>
      let nodeID := s.nextNodeID
      ({ s with clients := mapSet s.clients nodeID ws, nextNodeID := s.nextNodeID + 1 },
       [.send ws (.obj [("type", .str "hello"),
                        ("nodeID", .num (nodeID : Int)),
                        ("iceServerUrl", .str s.iceServerUrl)]),
        .send srv (.obj [("type", .str "clientConnected"),
                         ("nodeID", .num (nodeID : Int))]),
        .regHandlers ws])

/-- Body of the `try` block of `handleClientMessage` (src/app.ts lines
102-111).  Reading `msg["nodeID"]` on `null` throws; assigning a
property on a primitive throws in strict mode (class bodies are
strict); on an object the assignment overwrites or inserts `nodeID`
with the closure's authoritative identifier.  `this.serverWS?.send`
uses optional chaining: with no coordinator attached nothing is sent
and nothing throws. -/
def handleClientMessageBody (s : Session) (nodeID : Nat) (d : Parsed) :
    Except Unit (Session × List Effect) :=
  match d with
  | .parseError => .error ()
  | .value v =>
    match v with
    | .null => .error ()
    | .obj fields =>
        let msg := setField "nodeID" (.num (nodeID : Int)) fields
        match s.serverWS with
        | some srv => .ok (s, [.send srv (.obj msg)])
        | none => .ok (s, [])
    | _ => .error ()

/-- `handleClientMessage` (src/app.ts lines 100-112): `catch` logs only. -/
def handleClientMessage (s : Session) (nodeID : Nat) (d : Parsed) : Session × List Effect :=
  match handleClientMessageBody s nodeID d with
  | .ok r => r
  | .error _ => (s, [])

/-- The coordinator close handler (src/app.ts lines 51-54): clear the
slot, nothing else. -/
def handleServerClose (s : Session) : Session × List Effect :=
  ({ s with serverWS := none }, [])

/-- The participant close handler (src/app.ts lines 94-97): delete the
closure's registry entry, nothing else. -/
def handleClientClose (s : Session) (nodeID : Nat) : Session × List Effect :=
  ({ s with clients := mapDelete s.clients nodeID }, [])

/-- One dispatch step of the TS session.  `g` is the module-level
`iceServerUrl` binding (src/app.ts line 123).  The `Except` layer is
where an exception escaping a handler frame would surface; connection
and close handlers contain no throwing operation, and both message
handlers wrap their throwing operations in `try`/`catch`. -/
def stepE (g : String) (s : Session) (e : Event) : Except Unit (Session × List Effect) :=
  match e with
  | .serverConnect ws => .ok (handleServerConnection g s ws)
  | .clientConnect ws => .ok (handleClientConnection s ws)
  | .serverMessage d => .ok (handleServerMessage s d)
  | .serverClose => .ok (handleServerClose s)
  | .clientMessage nodeID d => .ok (handleClientMessage s nodeID d)
  | .clientClose nodeID => .ok (handleClientClose s nodeID)

/-- Total projection of `stepE`; the fallback branch is dead since no
exception escapes a handler. -/
def step (g : String) (s : Session) (e : Event) : Session × List Effect :=
  match stepE g s e with
  | .ok r => r
  | .error _ => (s, [])

/-- Run a sequence of dispatched events, accumulating all effects. -/
def runTrace (g : String) (s : Session) : List Event → Session × List Effect
  | [] => (s, [])
  | e :: es =>
      ((runTrace g (step g s e).1 es).1,
       (step g s e).2 ++ (runTrace g (step g s e).1 es).2)

/-- The identifier an event assigns in state `s`: a participant
admission while a coordinator is attached assigns the current counter
value, every other event assigns nothing. -/
def assignedHead (s : Session) (e : Event) : List Nat :=
  match e with
  | .clientConnect _ =>
      match s.serverWS with
      | some _ => [s.nextNodeID]
      | none => []
  | _ => []

/-- The identifiers assigned by the successful participant admissions
of a trace, in order. -/
def assignedIDs (g : String) (s : Session) : List Event → List Nat
  | [] => []
  | e :: es => assignedHead s e ++ assignedIDs g (step g s e).1 es

end App

namespace AppJS

/-- `const serverNodeID = 0` (src/app.js line 6). -/
def serverNodeID : Nat := 0

/-- `const iceServerUrl = "stun:stun.l.google.com:19302"` (src/app.js
line 8): the JS version hardcodes the signaling URL as a module-level
constant used by both `hello` sites. -/
def iceServerUrl : String := "stun:stun.l.google.com:19302"

/-- Mutable state of the JS `Session` class (src/app.js lines 14-21);
unlike the TS version it has no `iceServerUrl` field. -/
structure Session where
  serverWS : Option Nat
  clients : List (Nat × Nat)
  nextNodeID : Nat
deriving Repr, DecidableEq

/-- The constructor (src/app.js lines 14-21). -/
def Session.init : Session :=
  { serverWS := none, clients := [], nextNodeID := serverNodeID + 1 }

/-- `handleServerConnection` (src/app.js lines 31-50). -/
def handleServerConnection (s : Session) (ws : Nat) : Session × List Effect :=
  match s.serverWS with
  | some _ =>
      (s, [.send ws (.obj [("type", .str "error")])])
  | none =>
      ({ s with serverWS := some ws },
       [.regHandlers ws,
        .send ws (.obj [("type", .str "hello"),
                        ("nodeID", .num (serverNodeID : Int)),
                        ("iceServerUrl", .str iceServerUrl)])])

/-- Body of the `try` block of `handleServerMessage` (src/app.js lines
54-60).  Identical to the TS version except that
`this.clients.get(nodeID).send(...)` (line 57) has no optional chaining,
so a miss after a positive `has` would throw; that branch is
unreachable. -/
def handleServerMessageBody (s : Session) (d : Parsed) : Except Unit (Session × List Effect) :=
  match d with
  | .parseError => .error ()
  | .value v =>
    match v with
    | .null => .error ()
    | .obj fields =>
        match lookupField "nodeID" fields with
        | some (.num n) =>
            if mapHas s.clients n then
              match mapGet s.clients n with
              | some c => .ok (s, [.send c (.obj (removeField "nodeID" fields))])
              | none => .error ()
            else .ok (s, [])
        | _ => .ok (s, [])
    | _ => .ok (s, [])

/-- `handleServerMessage` (src/app.js lines 52-64). -/
def handleServerMessage (s : Session) (d : Parsed) : Session × List Effect :=
  match handleServerMessageBody s d with
  | .ok r => r
  | .error _ => (s, [])

/-- `handleClientConnection` (src/app.js lines 66-90); the `hello` on
line 81 uses the module constant `iceServerUrl`. -/
def handleClientConnection (s : Session) (ws : Nat) : Session × List Effect :=
  match s.serverWS with
  | none =>
      (s, [.send ws (.obj [("type", .str "error")])])
  | some srv =>
      let nodeID := s.nextNodeID
      ({ s with clients := mapSet s.clients nodeID ws, nextNodeID := s.nextNodeID + 1 },
       [.send ws (.obj [("type", .str "hello"),
                        ("nodeID", .num (nodeID : Int)),
                        ("iceServerUrl", .str iceServerUrl)]),
        .send srv (.obj [("type", .str "clientConnected"),
                         ("nodeID", .num (nodeID : Int))]),
        .regHandlers ws])

/-- Body of the `try` block of `handleClientMessage` (src/app.js lines
94-100).  The file is strict mode (line 1), so assigning a property on
a primitive throws; `this.serverWS.send(msg)` (line 100) has no
optional chaining, so it throws when no coordinator is attached —
inside the `try`, hence caught. -/
def handleClientMessageBody (s : Session) (nodeID : Nat) (d : Parsed) :
    Except Unit (Session × List Effect) :=
  match d with
  | .parseError => .error ()
  | .value v =>
    match v with
    | .null => .error ()
    | .obj fields =>
        let msg := setField "nodeID" (.num (nodeID : Int)) fields
        match s.serverWS with
        | some srv => .ok (s, [.send srv (.obj msg)])
        | none => .error ()
    | _ => .error ()

/-- `handleClientMessage` (src/app.js lines 92-104): `catch` logs only. -/
def handleClientMessage (s : Session) (nodeID : Nat) (d : Parsed) : Session × List Effect :=
  match handleClientMessageBody s nodeID d with
  | .ok r => r
  | .error _ => (s, [])

/-- The coordinator close handler (src/app.js lines 43-46). -/
def handleServerClose (s : Session) : Session × List Effect :=
  ({ s with serverWS := none }, [])

/-- The participant close handler (src/app.js lines 86-89). -/
def handleClientClose (s : Session) (nodeID : Nat) : Session × List Effect :=
  ({ s with clients := mapDelete s.clients nodeID }, [])

/-- One dispatch step of the JS session. -/
def stepE (s : Session) (e : Event) : Except Unit (Session × List Effect) :=
  match e with
  | .serverConnect ws => .ok (handleServerConnection s ws)
  | .clientConnect ws => .ok (handleClientConnection s ws)
  | .serverMessage d => .ok (handleServerMessage s d)
  | .serverClose => .ok (handleServerClose s)
  | .clientMessage nodeID d => .ok (handleClientMessage s nodeID d)
  | .clientClose nodeID => .ok (handleClientClose s nodeID)

/-- Total projection of `stepE`. -/
def step (s : Session) (e : Event) : Session × List Effect :=
  match stepE s e with
  | .ok r => r
  | .error _ => (s, [])

/-- Run a sequence of dispatched events, accumulating all effects. -/
def runTrace (s : Session) : List Event → Session × List Effect
  | [] => (s, [])
  | e :: es =>
      ((runTrace (step s e).1 es).1,
       (step s e).2 ++ (runTrace (step s e).1 es).2)

end AppJS

/-- The mutable core a TS session state shares with a JS session state. -/
def toCore (s : App.Session) : AppJS.Session :=
  { serverWS := s.serverWS, clients := s.clients, nextNodeID := s.nextNodeID }

section MapLemmas

/-- A positive `Map.has` guarantees that `Map.get` returns a connection. -/
theorem mapHas_get_some (m : List (Nat × Nat)) (i : Int) (h : mapHas m i = true) :
    ∃ c, mapGet m i = some c := by
  rw [mapHas, List.any_eq_true] at h
  obtain ⟨p, hmem, hp⟩ := h
  rw [mapGet]
  cases hf : m.find? (fun q => (q.1 : Int) = i) with
  | some q => exact ⟨q.2, by simp⟩
  | none =>
      have := List.find?_eq_none.mp hf p hmem
      exact absurd hp this

/-- A successful `Map.get` implies a positive `Map.has`. -/
theorem mapGet_some_has (m : List (Nat × Nat)) (i : Int) (c : Nat)
    (h : mapGet m i = some c) : mapHas m i = true := by
  rw [mapGet] at h
  cases hf : m.find? (fun q => (q.1 : Int) = i) with
  | none => rw [hf] at h; simp at h
  | some q =>
      rw [mapHas, List.any_eq_true]
      refine ⟨q, List.mem_of_find?_eq_some hf, ?_⟩
      have := List.find?_some hf
      exact this

/-- After deleting key `K`, `Map.has` is negative on `K`. -/
theorem mapHas_delete_self (m : List (Nat × Nat)) (K : Nat) :
    mapHas (mapDelete m K) (K : Int) = false := by
  by_contra h
  rw [Bool.not_eq_false, mapHas, List.any_eq_true] at h
  obtain ⟨p, hmem, hp⟩ := h
  rw [mapDelete, List.mem_filter] at hmem
  have h1 : (p.1 : Int) = (K : Int) := of_decide_eq_true hp
  have h2 : p.1 = K := by exact_mod_cast h1
  have h3 := hmem.2
  rw [h2] at h3
  simp at h3

/-- `Map.set` with a key fresher than every registered key appends. -/
theorem mapSet_fresh (m : List (Nat × Nat)) (k v : Nat)
    (h : ∀ a ∈ m.map Prod.fst, a < k) :
    mapSet m k v = m ++ [(k, v)] := by
  rw [mapSet, if_neg]
  intro hc
  rw [List.any_eq_true] at hc
  obtain ⟨p, hp, he⟩ := hc
  have he' : p.1 = k := of_decide_eq_true he
  exact absurd he' (Nat.ne_of_lt (h p.1 (List.mem_map_of_mem Prod.fst hp)))

end MapLemmas

section FieldLemmas

/-- Overwriting key `k` in place yields `v` at `k` (auxiliary for
`setField`, overwrite branch). -/
theorem lookupField_map_set (k : String) (v : JValue) :
    ∀ f : List (String × JValue), (f.any fun p => p.1 = k) = true →
      lookupField k (f.map fun p => if p.1 = k then (k, v) else p) = some v := by
  intro f
  induction f with
  | nil => intro h; simp at h
  | cons p rest ih =>
      intro h
      obtain ⟨k1, v1⟩ := p
      rw [List.map_cons]
      by_cases hp : k1 = k
      · simp only at hp
        rw [if_pos hp, lookupField, if_pos rfl]
      · simp only at hp
        rw [if_neg hp, lookupField, if_neg hp]
        apply ih
        rw [List.any_cons] at h
        rcases Bool.or_eq_true_iff.mp h with h1 | h2
        · exact absurd (of_decide_eq_true h1) hp
        · exact h2

/-- Appending the binding `(k, v)` to a list without key `k` yields `v`
at `k` (auxiliary for `setField`, insert branch). -/
theorem lookupField_append_new (k : String) (v : JValue) :
    ∀ f : List (String × JValue), (f.any fun p => p.1 = k) = false →
      lookupField k (f ++ [(k, v)]) = some v := by
  intro f
  induction f with
  | nil => intro _; rw [List.nil_append, lookupField, if_pos rfl]
  | cons p rest ih =>
      intro h
      obtain ⟨k1, v1⟩ := p
      rw [List.any_cons, Bool.or_eq_false_iff] at h
      have hp : ¬ k1 = k := of_decide_eq_false h.1
      rw [List.cons_append, lookupField, if_neg hp]
      exact ih h.2

/-- After `msg[k] = v`, reading `msg[k]` gives `v`. -/
theorem lookupField_setField_self (k : String) (v : JValue) (f : List (String × JValue)) :
    lookupField k (setField k v f) = some v := by
  rw [setField]
  by_cases ha : (f.any fun p => p.1 = k) = true
  · rw [if_pos ha]
    exact lookupField_map_set k v f ha
  · rw [if_neg ha]
    exact lookupField_append_new k v f (Bool.not_eq_true _ ▸ ha)

/-- Overwriting key `k'` in place does not change other keys (auxiliary). -/
theorem lookupField_map_set_ne (k k' : String) (v : JValue) (h : k ≠ k') :
    ∀ f : List (String × JValue),
      lookupField k (f.map fun p => if p.1 = k' then (k', v) else p) = lookupField k f := by
  intro f
  induction f with
  | nil => rfl
  | cons p rest ih =>
      obtain ⟨k1, v1⟩ := p
      rw [List.map_cons]
      by_cases hp : k1 = k'
      · simp only at hp
        rw [if_pos hp, lookupField, lookupField, hp, if_neg (Ne.symm h), if_neg (Ne.symm h)]
        exact ih
      · simp only at hp
        rw [if_neg hp, lookupField, lookupField]
        by_cases hpk : k1 = k
        · rw [if_pos hpk, if_pos hpk]
        · rw [if_neg hpk, if_neg hpk]
          exact ih

/-- Appending the binding `(k', v)` does not change other keys (auxiliary). -/
theorem lookupField_append_ne (k k' : String) (v : JValue) (h : k ≠ k') :
    ∀ f : List (String × JValue),
      lookupField k (f ++ [(k', v)]) = lookupField k f := by
  intro f
  induction f with
  | nil => simp [lookupField, Ne.symm h]
  | cons p rest ih =>
      obtain ⟨k1, v1⟩ := p
      rw [List.cons_append, lookupField, lookupField]
      by_cases hpk : k1 = k
      · rw [if_pos hpk, if_pos hpk]
      · rw [if_neg hpk, if_neg hpk]
        exact ih

/-- `msg[k'] = v` does not change the value read at any other key `k`. -/
theorem lookupField_setField_ne (k k' : String) (v : JValue) (f : List (String × JValue))
    (h : k ≠ k') :
    lookupField k (setField k' v f) = lookupField k f := by
  rw [setField]
  by_cases ha : (f.any fun p => p.1 = k') = true
  · rw [if_pos ha]
    exact lookupField_map_set_ne k k' v h f
  · rw [if_neg ha]
    exact lookupField_append_ne k k' v h f

end FieldLemmas

section StateLemmas

/-- The TS message handler for coordinator frames never mutates the
session state. -/
theorem App.handleServerMessage_state (s : App.Session) (d : Parsed) :
    (App.handleServerMessage s d).1 = s := by
  rcases d with _ | v
  · rfl
  · rcases v with _ | b | n | t | fields <;> try rfl
    rcases hl : lookupField "nodeID" fields with _ | w
    · simp [App.handleServerMessage, App.handleServerMessageBody, hl]
    · rcases w with _ | b | n | t | f2 <;>
        try simp [App.handleServerMessage, App.handleServerMessageBody, hl]
      by_cases hh : mapHas s.clients n = true
      · obtain ⟨c, hc⟩ := mapHas_get_some _ _ hh
        simp [App.handleServerMessage, App.handleServerMessageBody, hl, hh, hc]
      · simp only [Bool.not_eq_true] at hh
        simp [App.handleServerMessage, App.handleServerMessageBody, hl, hh]

/-- The TS message handler for participant frames never mutates the
session state. -/
theorem App.handleClientMessage_state (s : App.Session) (nodeID : Nat) (d : Parsed) :
    (App.handleClientMessage s nodeID d).1 = s := by
  rcases d with _ | v
  · rfl
  · rcases v with _ | b | n | t | fields <;> try rfl
    rcases hw : s.serverWS with _ | srv <;>
      simp [App.handleClientMessage, App.handleClientMessageBody, hw]

/-- The JS message handler for coordinator frames never mutates the
session state. -/
theorem AppJS.handleServerMessage_keeps_state (s : AppJS.Session) (d : Parsed) :
    (AppJS.handleServerMessage s d).1 = s := by
  rcases d with _ | v
  · rfl
  · rcases v with _ | b | n | t | fields <;> try rfl
    rcases hl : lookupField "nodeID" fields with _ | w
    · simp [AppJS.handleServerMessage, AppJS.handleServerMessageBody, hl]
    · rcases w with _ | b | n | t | f2 <;>
        try simp [AppJS.handleServerMessage, AppJS.handleServerMessageBody, hl]
      by_cases hh : mapHas s.clients n = true
      · obtain ⟨c, hc⟩ := mapHas_get_some _ _ hh
        simp [AppJS.handleServerMessage, AppJS.handleServerMessageBody, hl, hh, hc]
      · simp only [Bool.not_eq_true] at hh
        simp [AppJS.handleServerMessage, AppJS.handleServerMessageBody, hl, hh]

/-- The JS message handler for participant frames never mutates the
session state. -/
theorem AppJS.handleClientMessage_keeps_state (s : AppJS.Session) (nodeID : Nat) (d : Parsed) :
    (AppJS.handleClientMessage s nodeID d).1 = s := by
  rcases d with _ | v
  · rfl
  · rcases v with _ | b | n | t | fields <;> try rfl
    rcases hw : s.serverWS with _ | srv <;>
      simp [AppJS.handleClientMessage, AppJS.handleClientMessageBody, hw]

end StateLemmas

section TraceLemmas

/-- Well-formedness of a reachable TS session state: the counter is
positive, every registered identifier is below the counter, and no
identifier is registered twice. -/
def App.GoodState (s : App.Session) : Prop :=
  1 ≤ s.nextNodeID ∧ (∀ k ∈ s.clients.map Prod.fst, k < s.nextNodeID) ∧
    (s.clients.map Prod.fst).Nodup

/-- The constructed session is well-formed. -/
theorem App.init_good (url : String) : App.GoodState (App.Session.init url) := by
  refine ⟨?_, ?_, ?_⟩ <;> simp [App.Session.init, App.serverNodeID, App.GoodState]

/-- Every dispatch step preserves well-formedness. -/
theorem App.step_preserves_good (g : String) (s : App.Session) (e : Event)
    (h : App.GoodState s) : App.GoodState (App.step g s e).1 := by
  obtain ⟨h1, h2, h3⟩ := h
  cases e with
  | serverConnect ws =>
      rcases hw : s.serverWS with _ | c <;>
        simp only [App.step, App.stepE, App.handleServerConnection, hw] <;>
        exact ⟨h1, h2, h3⟩
  | clientConnect ws =>
      rcases hw : s.serverWS with _ | c
      · simp only [App.step, App.stepE, App.handleClientConnection, hw]
        exact ⟨h1, h2, h3⟩
      · have hfresh := mapSet_fresh s.clients s.nextNodeID ws h2
        simp only [App.step, App.stepE, App.handleClientConnection, hw, hfresh]
        refine ⟨Nat.le_succ_of_le h1, ?_, ?_⟩
        · intro k hk
          rw [List.map_append, List.mem_append] at hk
          rcases hk with hk | hk
          · exact Nat.lt_succ_of_lt (h2 k hk)
          · simp at hk
            subst hk
            exact Nat.lt_succ_self _
        · rw [List.map_append]
          refine List.Nodup.append h3 (by simp) ?_
          intro a ha hb
          simp at hb
          subst hb
          exact absurd (h2 _ ha) (lt_irrefl _)
  | serverMessage d =>
      simp only [App.step, App.stepE]
      rw [App.handleServerMessage_state]
      exact ⟨h1, h2, h3⟩
  | serverClose =>
      simp only [App.step, App.stepE, App.handleServerClose]
      exact ⟨h1, h2, h3⟩
  | clientMessage P d =>
      simp only [App.step, App.stepE]
      rw [App.handleClientMessage_state]
      exact ⟨h1, h2, h3⟩
  | clientClose K =>
      simp only [App.step, App.stepE, App.handleClientClose]
      have hsub : ((mapDelete s.clients K).map Prod.fst).Sublist (s.clients.map Prod.fst) :=
        List.Sublist.map Prod.fst (List.filter_sublist s.clients)
      exact ⟨h1, fun k hk => h2 k (hsub.subset hk), List.Nodup.sublist hsub h3⟩

/-- The identifier counter never decreases. -/
theorem App.step_mono (g : String) (s : App.Session) (e : Event) :
    s.nextNodeID ≤ (App.step g s e).1.nextNodeID := by
  cases e with
  | serverConnect ws =>
      rcases hw : s.serverWS with _ | c <;>
        simp [App.step, App.stepE, App.handleServerConnection, hw]
  | clientConnect ws =>
      rcases hw : s.serverWS with _ | c <;>
        simp [App.step, App.stepE, App.handleClientConnection, hw, Nat.le_succ]
  | serverMessage d =>
      simp only [App.step, App.stepE]
      rw [App.handleServerMessage_state]
  | serverClose =>
      simp [App.step, App.stepE, App.handleServerClose]
  | clientMessage P d =>
      simp only [App.step, App.stepE]
      rw [App.handleClientMessage_state]
  | clientClose K =>
      simp [App.step, App.stepE, App.handleClientClose]

/-- On a successful participant admission the counter advances by one. -/
theorem App.step_clientConnect_succ (g : String) (s : App.Session) (c ws : Nat)
    (hw : s.serverWS = some c) :
    (App.step g s (.clientConnect ws)).1.nextNodeID = s.nextNodeID + 1 := by
  simp [App.step, App.stepE, App.handleClientConnection, hw]

/-- Every identifier a trace assigns is at least the current counter. -/
theorem App.assignedIDs_lb (g : String) :
    ∀ (es : List Event) (s : App.Session) (i : Nat),
      i ∈ App.assignedIDs g s es → s.nextNodeID ≤ i := by
  intro es
  induction es with
  | nil =>
      intro s i hi
      simp [App.assignedIDs] at hi
  | cons e rest ih =>
      intro s i hi
      rw [App.assignedIDs, List.mem_append] at hi
      rcases hi with hi | hi
      · rcases e with ws | ws | d | _ | ⟨P, d⟩ | K <;>
          simp only [App.assignedHead] at hi <;> try simp at hi
        rcases hw : s.serverWS with _ | c <;> simp only [hw] at hi <;> simp at hi
        subst hi
        exact le_refl _
      · exact le_trans (App.step_mono g s e) (ih _ i hi)

/-- The identifiers assigned along any trace form a strictly increasing
sequence. -/
theorem App.assignedIDs_chain (g : String) :
    ∀ (es : List Event) (s : App.Session),
      List.Chain' (· < ·) (App.assignedIDs g s es) := by
  intro es
  induction es with
  | nil =>
      intro s
      simp [App.assignedIDs]
  | cons e rest ih =>
      intro s
      rw [App.assignedIDs]
      rcases e with ws | ws | d | _ | ⟨P, d⟩ | K <;>
        simp only [App.assignedHead] <;>
        try (simp only [List.nil_append]; exact ih _)
      rcases hw : s.serverWS with _ | c
      · simp only [hw, List.nil_append]
        exact ih _
      · simp only [hw, List.singleton_append]
        rw [List.chain'_cons']
        refine ⟨?_, ih _⟩
        intro b hb
        have hmem : b ∈ App.assignedIDs g (App.step g s (.clientConnect ws)).1 rest :=
          List.mem_of_mem_head? hb
        have hlb := App.assignedIDs_lb g rest _ b hmem
        rw [App.step_clientConnect_succ g s c ws hw] at hlb
        omega

/-- Well-formedness holds at the end of every trace from a well-formed
state. -/
theorem App.runTrace_good (g : String) :
    ∀ (es : List Event) (s : App.Session), App.GoodState s →
      App.GoodState (App.runTrace g s es).1 := by
  intro es
  induction es with
  | nil => intro s h; exact h
  | cons e rest ih =>
      intro s h
      rw [App.runTrace]
      exact ih _ (App.step_preserves_good g s e h)

end TraceLemmas

section EquivLemmas

/-- The two coordinator-message handlers agree on state and effects. -/
theorem equiv_handleServerMessage (s : App.Session) (d : Parsed) :
    AppJS.handleServerMessage (toCore s) d =
      (toCore (App.handleServerMessage s d).1, (App.handleServerMessage s d).2) := by
  rcases d with _ | v
  · rfl
  · rcases v with _ | b | n | t | fields <;> try rfl
    rcases hl : lookupField "nodeID" fields with _ | w
    · simp [AppJS.handleServerMessage, AppJS.handleServerMessageBody,
            App.handleServerMessage, App.handleServerMessageBody, toCore, hl]
    · rcases w with _ | b | n | t | f2 <;>
        try simp [AppJS.handleServerMessage, AppJS.handleServerMessageBody,
                  App.handleServerMessage, App.handleServerMessageBody, toCore, hl]
      by_cases hh : mapHas s.clients n = true
      · obtain ⟨c, hc⟩ := mapHas_get_some _ _ hh
        simp [AppJS.handleServerMessage, AppJS.handleServerMessageBody,
              App.handleServerMessage, App.handleServerMessageBody, toCore, hl, hh, hc]
      · simp only [Bool.not_eq_true] at hh
        simp [AppJS.handleServerMessage, AppJS.handleServerMessageBody,
              App.handleServerMessage, App.handleServerMessageBody, toCore, hl, hh]

/-- The two participant-message handlers agree on state and effects:
with no coordinator attached, the TS optional chaining skips the send
while the JS null dereference throws and is caught — both drop the
message with no effect. -/
theorem equiv_handleClientMessage (s : App.Session) (P : Nat) (d : Parsed) :
    AppJS.handleClientMessage (toCore s) P d =
      (toCore (App.handleClientMessage s P d).1, (App.handleClientMessage s P d).2) := by
  rcases d with _ | v
  · rfl
  · rcases v with _ | b | n | t | fields <;> try rfl
    rcases hw : s.serverWS with _ | srv <;>
      simp [AppJS.handleClientMessage, AppJS.handleClientMessageBody,
            App.handleClientMessage, App.handleClientMessageBody, toCore, hw]

/-- Every dispatch step agrees between the two implementations when the
TS session is configured with the JS module URL. -/
theorem equiv_step (s : App.Session) (e : Event)
    (h : s.iceServerUrl = AppJS.iceServerUrl) :
    AppJS.step (toCore s) e =
      (toCore (App.step AppJS.iceServerUrl s e).1,
       (App.step AppJS.iceServerUrl s e).2) := by
  cases e with
  | serverConnect ws =>
      rcases hw : s.serverWS with _ | c <;>
        simp [AppJS.step, AppJS.stepE, AppJS.handleServerConnection,
              App.step, App.stepE, App.handleServerConnection, toCore, hw,
              App.serverNodeID, AppJS.serverNodeID]
  | clientConnect ws =>
      rcases hw : s.serverWS with _ | c <;>
        simp [AppJS.step, AppJS.stepE, AppJS.handleClientConnection,
              App.step, App.stepE, App.handleClientConnection, toCore, hw, h]
  | serverMessage d =>
      simp only [AppJS.step, AppJS.stepE, App.step, App.stepE]
      exact equiv_handleServerMessage s d
  | serverClose =>
      simp [AppJS.step, AppJS.stepE, AppJS.handleServerClose,
            App.step, App.stepE, App.handleServerClose, toCore]
  | clientMessage P d =>
      simp only [AppJS.step, AppJS.stepE, App.step, App.stepE]
      exact equiv_handleClientMessage s P d
  | clientClose K =>
      simp [AppJS.step, AppJS.stepE, AppJS.handleClientClose,
            App.step, App.stepE, App.handleClientClose, toCore]

/-- A dispatch step never changes the TS session's configured URL. -/
theorem App.step_iceServerUrl (g : String) (s : App.Session) (e : Event) :
    (App.step g s e).1.iceServerUrl = s.iceServerUrl := by
  cases e with
  | serverConnect ws =>
      rcases hw : s.serverWS with _ | c <;>
        simp [App.step, App.stepE, App.handleServerConnection, hw]
  | clientConnect ws =>
      rcases hw : s.serverWS with _ | c <;>
        simp [App.step, App.stepE, App.handleClientConnection, hw]
  | serverMessage d =>
      simp only [App.step, App.stepE]
      rw [App.handleServerMessage_state]
  | serverClose =>
      simp [App.step, App.stepE, App.handleServerClose]
  | clientMessage P d =>
      simp only [App.step, App.stepE]
      rw [App.handleClientMessage_state]
  | clientClose K =>
      simp [App.step, App.stepE, App.handleClientClose]

/-- Whole traces agree between the two implementations. -/
theorem equiv_runTrace :
    ∀ (es : List Event) (s : App.Session), s.iceServerUrl = AppJS.iceServerUrl →
      AppJS.runTrace (toCore s) es =
        (toCore (App.runTrace AppJS.iceServerUrl s es).1,
         (App.runTrace AppJS.iceServerUrl s es).2) := by
  intro es
  induction es with
  | nil => intro s h; rfl
  | cons e rest ih =>
      intro s h
      have hurl : (App.step AppJS.iceServerUrl s e).1.iceServerUrl = AppJS.iceServerUrl := by
        rw [App.step_iceServerUrl]
        exact h
      rw [AppJS.runTrace, App.runTrace, equiv_step s e h]
      rw [ih _ hurl]

end EquivLemmas

/-- C1: in every state with a coordinator attached, a further
coordinator admission (handleServerConnection) sends the new connection
exactly one `error` notification, registers no handlers on it, and
returns the state unchanged — the coordinator slot still holds the
original connection, the participant registry and the identifier
counter are untouched. -/
theorem second_coordinator_rejected (g : String) (s : App.Session) (c ws : Nat)
    (h : s.serverWS = some c) :
    App.stepE g s (.serverConnect ws) =
      .ok (s, [.send ws (.obj [("type", .str "error")])]) := by
  simp [App.stepE, App.handleServerConnection, h]

/-- Witness for C1 at a concrete state. -/
theorem second_coordinator_rejected_witness :
    ({ serverWS := some 4, clients := [(1, 9)], nextNodeID := 2,
       iceServerUrl := "u" } : App.Session).serverWS = some 4 ∧
    App.stepE "u"
        { serverWS := some 4, clients := [(1, 9)], nextNodeID := 2, iceServerUrl := "u" }
        (.serverConnect 7) =
      .ok ({ serverWS := some 4, clients := [(1, 9)], nextNodeID := 2, iceServerUrl := "u" },
           [.send 7 (.obj [("type", .str "error")])]) :=
  ⟨rfl, second_coordinator_rejected "u" _ 4 7 rfl⟩

/-- C2: from the initial session state, along any sequence of
dispatched events the identifiers assigned by successful participant
admissions are strictly increasing, pairwise distinct (never assigned
twice in the process lifetime), never the reserved coordinator
identifier 0, and the registry reached by the trace never holds two
participants under the same identifier. -/
theorem identifier_uniqueness (g : String) (es : List Event) :
    List.Chain' (· < ·) (App.assignedIDs g (App.Session.init g) es) ∧
    (App.assignedIDs g (App.Session.init g) es).Nodup ∧
    0 ∉ App.assignedIDs g (App.Session.init g) es ∧
    ((App.runTrace g (App.Session.init g) es).1.clients.map Prod.fst).Nodup := by
  have hchain := App.assignedIDs_chain g es (App.Session.init g)
  refine ⟨hchain, ?_, ?_, ?_⟩
  · have hpw : List.Pairwise (· < ·) (App.assignedIDs g (App.Session.init g) es) :=
      List.chain'_iff_pairwise.mp hchain
    exact hpw.imp Nat.ne_of_lt
  · intro h0
    have := App.assignedIDs_lb g es (App.Session.init g) 0 h0
    simp [App.Session.init, App.serverNodeID] at this
  · exact (App.runTrace_good g es _ (App.init_good g)).2.2

/-- C3: two parseable object messages from participant `P` that agree
on every field other than `nodeID` are forwarded to the coordinator as
the same JSON object — the forwarded objects agree at every key — and
the forwarded `nodeID` is `P`, the sender's authoritative identifier;
the declared `nodeID`, whatever it was, is discarded. -/
theorem nodeID_spoof_resistant (g : String) (s : App.Session) (c P : Nat)
    (f1 f2 : List (String × JValue))
    (hs : s.serverWS = some c)
    (hdiff : ∀ k, k ≠ "nodeID" → lookupField k f1 = lookupField k f2) :
    ∃ m1 m2,
      App.stepE g s (.clientMessage P (.value (.obj f1))) =
        .ok (s, [.send c (.obj m1)]) ∧
      App.stepE g s (.clientMessage P (.value (.obj f2))) =
        .ok (s, [.send c (.obj m2)]) ∧
      (∀ k, lookupField k m1 = lookupField k m2) ∧
      lookupField "nodeID" m1 = some (.num (P : Int)) := by
  refine ⟨setField "nodeID" (.num (P : Int)) f1, setField "nodeID" (.num (P : Int)) f2,
    ?_, ?_, ?_, ?_⟩
  · simp [App.stepE, App.handleClientMessage, App.handleClientMessageBody, hs]
  · simp [App.stepE, App.handleClientMessage, App.handleClientMessageBody, hs]
  · intro k
    by_cases hk : k = "nodeID"
    · subst hk
      rw [lookupField_setField_self, lookupField_setField_self]
    · rw [lookupField_setField_ne k "nodeID" _ f1 hk,
          lookupField_setField_ne k "nodeID" _ f2 hk]
      exact hdiff k hk
  · exact lookupField_setField_self "nodeID" (.num (P : Int)) f1

/-- Witness for C3: participant 3 sends `\x7bnodeID: 99, x: 1\x7d` and
`\x7bx: 1\x7d`; both are forwarded as the same object with `nodeID` 3. -/
theorem nodeID_spoof_resistant_witness :
    (({ serverWS := some 5, clients := [(3, 8)], nextNodeID := 4,
        iceServerUrl := "u" } : App.Session).serverWS = some 5) ∧
    (∀ k, k ≠ "nodeID" →
      lookupField k [("nodeID", JValue.num 99), ("x", JValue.num 1)] =
        lookupField k [("x", JValue.num 1)]) ∧
    (∃ m1 m2,
      App.stepE "u"
          { serverWS := some 5, clients := [(3, 8)], nextNodeID := 4, iceServerUrl := "u" }
          (.clientMessage 3 (.value (.obj [("nodeID", .num 99), ("x", .num 1)]))) =
        .ok ({ serverWS := some 5, clients := [(3, 8)], nextNodeID := 4, iceServerUrl := "u" },
             [.send 5 (.obj m1)]) ∧
      App.stepE "u"
          { serverWS := some 5, clients := [(3, 8)], nextNodeID := 4, iceServerUrl := "u" }
          (.clientMessage 3 (.value (.obj [("x", .num 1)]))) =
        .ok ({ serverWS := some 5, clients := [(3, 8)], nextNodeID := 4, iceServerUrl := "u" },
             [.send 5 (.obj m2)]) ∧
      (∀ k, lookupField k m1 = lookupField k m2) ∧
      lookupField "nodeID" m1 = some (.num 3)) := by
  refine ⟨rfl, ?_, ?_⟩
  · intro k hk
    simp [lookupField, Ne.symm hk]
  · exact nodeID_spoof_resistant "u" _ 5 3 _ _ rfl
      (by intro k hk; simp [lookupField, Ne.symm hk])

/-- C4: a parseable coordinator message carrying a `nodeID` field is
delivered to the participant registered under that identifier as
exactly the message with the `nodeID` field removed and every other
field unchanged; if no participant is registered under it, no message
is delivered to any connection and nothing is sent back to the
coordinator — the state is unchanged either way. -/
theorem relay_from_coordinator (g : String) (s : App.Session)
    (fields : List (String × JValue)) (v : JValue)
    (hn : lookupField "nodeID" fields = some v) :
    (∀ i conn, v = .num i → mapGet s.clients i = some conn →
        App.stepE g s (.serverMessage (.value (.obj fields))) =
          .ok (s, [.send conn (.obj (removeField "nodeID" fields))])) ∧
    ((∀ i, v = .num i → mapHas s.clients i = false) →
        App.stepE g s (.serverMessage (.value (.obj fields))) = .ok (s, [])) := by
  constructor
  · intro i conn hv hget
    subst hv
    have hh := mapGet_some_has s.clients i conn hget
    simp [App.stepE, App.handleServerMessage, App.handleServerMessageBody, hn, hh, hget]
  · intro hmiss
    rcases v with _ | b | n | t | f2
    · simp [App.stepE, App.handleServerMessage, App.handleServerMessageBody, hn]
    · simp [App.stepE, App.handleServerMessage, App.handleServerMessageBody, hn]
    · simp [App.stepE, App.handleServerMessage, App.handleServerMessageBody, hn, hmiss n rfl]
    · simp [App.stepE, App.handleServerMessage, App.handleServerMessageBody, hn]
    · simp [App.stepE, App.handleServerMessage, App.handleServerMessageBody, hn]

/-- Witness for C4: the coordinator sends `\x7bnodeID: 7, foo: "bar"\x7d`
while participant 7 is registered on connection 20; connection 20
receives exactly `\x7bfoo: "bar"\x7d`. -/
theorem relay_from_coordinator_witness :
    App.stepE "u"
        { serverWS := some 5, clients := [(7, 20)], nextNodeID := 8, iceServerUrl := "u" }
        (.serverMessage (.value (.obj [("nodeID", .num 7), ("foo", .str "bar")]))) =
      .ok ({ serverWS := some 5, clients := [(7, 20)], nextNodeID := 8, iceServerUrl := "u" },
           [.send 20 (.obj [("foo", .str "bar")])]) :=
  (relay_from_coordinator "u"
    { serverWS := some 5, clients := [(7, 20)], nextNodeID := 8, iceServerUrl := "u" }
    [("nodeID", .num 7), ("foo", .str "bar")] (.num 7) rfl).1 7 20 rfl rfl

/-- C5: with no coordinator attached, a participant admission
(handleClientConnection) sends that connection exactly one `error`
notification and never a `hello`, registers nothing, does not advance
the identifier counter, and sends nothing to any other connection —
the state is returned unchanged. -/
theorem participant_rejected_without_coordinator (g : String) (s : App.Session) (ws : Nat)
    (h : s.serverWS = none) :
    App.stepE g s (.clientConnect ws) =
      .ok (s, [.send ws (.obj [("type", .str "error")])]) := by
  simp [App.stepE, App.handleClientConnection, h]

/-- Witness for C5 at the freshly constructed session. -/
theorem participant_rejected_without_coordinator_witness :
    (App.Session.init "u").serverWS = none ∧
    App.stepE "u" (App.Session.init "u") (.clientConnect 7) =
      .ok (App.Session.init "u", [.send 7 (.obj [("type", .str "error")])]) :=
  ⟨rfl, participant_rejected_without_coordinator "u" _ 7 rfl⟩

/-- C6: participant `K`'s close removes exactly `K`'s registry entry
and sends nothing to anyone (in particular no notification to the
coordinator); a subsequent coordinator message addressed to `K` is
dropped with no delivery and no error; the coordinator's close clears
exactly the coordinator slot, leaving every participant registered;
and a new coordinator may then attach and receives `hello` with
`nodeID` 0. -/
theorem disconnect_cleanup (g : String) (s : App.Session) (K ws : Nat)
    (fields : List (String × JValue))
    (hf : lookupField "nodeID" fields = some (.num (K : Int))) :
    App.stepE g s (.clientClose K) =
      .ok ({ s with clients := mapDelete s.clients K }, []) ∧
    App.stepE g { s with clients := mapDelete s.clients K }
        (.serverMessage (.value (.obj fields))) =
      .ok ({ s with clients := mapDelete s.clients K }, []) ∧
    App.stepE g s .serverClose = .ok ({ s with serverWS := none }, []) ∧
    App.stepE g { s with serverWS := none } (.serverConnect ws) =
      .ok ({ s with serverWS := some ws },
           [.regHandlers ws,
            .send ws (.obj [("type", .str "hello"), ("nodeID", .num 0),
                            ("iceServerUrl", .str g)])]) := by
  refine ⟨rfl, ?_, rfl, ?_⟩
  · have hmiss := mapHas_delete_self s.clients K
    simp [App.stepE, App.handleServerMessage, App.handleServerMessageBody, hf, hmiss]
  · simp [App.stepE, App.handleServerConnection, App.serverNodeID]

/-- Witness for C6 at a concrete state: participants 1 and 2 are
registered, participant 1 closes, `K = 1`. -/
theorem disconnect_cleanup_witness :
    lookupField "nodeID" [("nodeID", JValue.num 1)] = some (.num (1 : Nat)) ∧
    (App.stepE "u"
        { serverWS := some 5, clients := [(1, 8), (2, 9)], nextNodeID := 3, iceServerUrl := "u" }
        (.clientClose 1) =
      .ok ({ serverWS := some 5, clients := [(2, 9)], nextNodeID := 3, iceServerUrl := "u" },
           []) ∧
    App.stepE "u"
        { serverWS := some 5, clients := [(2, 9)], nextNodeID := 3, iceServerUrl := "u" }
        (.serverMessage (.value (.obj [("nodeID", .num 1)]))) =
      .ok ({ serverWS := some 5, clients := [(2, 9)], nextNodeID := 3, iceServerUrl := "u" },
           []) ∧
    App.stepE "u"
        { serverWS := some 5, clients := [(1, 8), (2, 9)], nextNodeID := 3, iceServerUrl := "u" }
        .serverClose =
      .ok ({ serverWS := none, clients := [(1, 8), (2, 9)], nextNodeID := 3,
             iceServerUrl := "u" }, []) ∧
    App.stepE "u"
        { serverWS := none, clients := [(1, 8), (2, 9)], nextNodeID := 3, iceServerUrl := "u" }
        (.serverConnect 6) =
      .ok ({ serverWS := some 6, clients := [(1, 8), (2, 9)], nextNodeID := 3,
             iceServerUrl := "u" },
           [.regHandlers 6,
            .send 6 (.obj [("type", .str "hello"), ("nodeID", .num 0),
                           ("iceServerUrl", .str "u")])])) :=
  ⟨rfl, disconnect_cleanup "u"
    { serverWS := some 5, clients := [(1, 8), (2, 9)], nextNodeID := 3, iceServerUrl := "u" }
    1 6 [("nodeID", .num 1)] rfl⟩

/-- C7 counterexample: at a concrete state with the coordinator on
connection 5, admitting participant connection 7 sends the coordinator
a notification whose wire `type` is `"clientConnected"`, and the full
effect list shows the coordinator receives no other message — so no
notification of wire type `"participantConnected"` is sent, refuting
the claimed wire type. -/
theorem participantConnected_counterexample :
    App.stepE "u" { serverWS := some 5, clients := [], nextNodeID := 1, iceServerUrl := "u" }
        (.clientConnect 7) =
      .ok ({ serverWS := some 5, clients := [(1, 7)], nextNodeID := 2, iceServerUrl := "u" },
           [.send 7 (.obj [("type", .str "hello"), ("nodeID", .num 1),
                           ("iceServerUrl", .str "u")]),
            .send 5 (.obj [("type", .str "clientConnected"), ("nodeID", .num 1)]),
            .regHandlers 7]) ∧
    lookupField "type" [("type", JValue.str "clientConnected"), ("nodeID", JValue.num 1)] =
      some (.str "clientConnected") ∧
    JValue.str "clientConnected" ≠ JValue.str "participantConnected" := by
  refine ⟨rfl, rfl, ?_⟩
  intro h
  exact absurd (JValue.str.inj h) (by decide)

/-- C7 (amended): on every successful participant admission the session
sends the new participant a `hello` notification carrying its assigned
identifier and the signaling URL, and sends the attached coordinator a
notification of wire type `clientConnected` (the notification the spec
calls `participantConnected`) whose `nodeID` field carries the newly
assigned identifier. -/
theorem participant_admission_notifications (g : String) (s : App.Session) (c ws : Nat)
    (h : s.serverWS = some c) :
    App.stepE g s (.clientConnect ws) =
      .ok ({ s with clients := mapSet s.clients s.nextNodeID ws,
                    nextNodeID := s.nextNodeID + 1 },
           [.send ws (.obj [("type", .str "hello"), ("nodeID", .num (s.nextNodeID : Int)),
                            ("iceServerUrl", .str s.iceServerUrl)]),
            .send c (.obj [("type", .str "clientConnected"),
                           ("nodeID", .num (s.nextNodeID : Int))]),
            .regHandlers ws]) := by
  simp [App.stepE, App.handleClientConnection, h]

/-- Witness for the amended C7 at a concrete state. -/
theorem participant_admission_notifications_witness :
    ({ serverWS := some 5, clients := [], nextNodeID := 1,
       iceServerUrl := "u" } : App.Session).serverWS = some 5 ∧
    App.stepE "u" { serverWS := some 5, clients := [], nextNodeID := 1, iceServerUrl := "u" }
        (.clientConnect 7) =
      .ok ({ serverWS := some 5, clients := [(1, 7)], nextNodeID := 2, iceServerUrl := "u" },
           [.send 7 (.obj [("type", .str "hello"), ("nodeID", .num 1),
                           ("iceServerUrl", .str "u")]),
            .send 5 (.obj [("type", .str "clientConnected"), ("nodeID", .num 1)]),
            .regHandlers 7]) :=
  ⟨rfl, participant_admission_notifications "u" _ 5 7 rfl⟩

/-- C8: on successful coordinator admission the coordinator receives
exactly one `hello` notification, containing `nodeID` 0 and the
signaling URL the session was constructed with.  In src/app.ts line 57
the `hello` reads the module-level binding `iceServerUrl` (declared on
line 123), passed here as `g`; the program constructs its unique
session from that same binding (line 127), which the hypothesis `hg`
captures. -/
theorem coordinator_hello (g : String) (s : App.Session) (ws : Nat)
    (h0 : s.serverWS = none) (hg : s.iceServerUrl = g) :
    App.stepE g s (.serverConnect ws) =
      .ok ({ s with serverWS := some ws },
           [.regHandlers ws,
            .send ws (.obj [("type", .str "hello"), ("nodeID", .num 0),
                            ("iceServerUrl", .str s.iceServerUrl)])]) := by
  subst hg
  simp [App.stepE, App.handleServerConnection, h0, App.serverNodeID]

/-- Witness for C8 at the freshly constructed session. -/
theorem coordinator_hello_witness :
    (App.Session.init "stun:example.org").serverWS = none ∧
    (App.Session.init "stun:example.org").iceServerUrl = "stun:example.org" ∧
    App.stepE "stun:example.org" (App.Session.init "stun:example.org") (.serverConnect 6) =
      .ok ({ serverWS := some 6, clients := [], nextNodeID := 1,
             iceServerUrl := "stun:example.org" },
           [.regHandlers 6,
            .send 6 (.obj [("type", .str "hello"), ("nodeID", .num 0),
                           ("iceServerUrl", .str "stun:example.org")])]) :=
  ⟨rfl, rfl, coordinator_hello "stun:example.org" _ 6 rfl rfl⟩

/-- C9: no handler operation throws out of its own frame: every
dispatch step of either implementation returns normally (`Except.ok`)
for every state and event — including unparseable frames, parseable
non-object JSON such as `null`, messages lacking a `nodeID` field,
participant messages with no coordinator attached, and every order of
disconnects — and message events never change the session state, so a
dropped message leaves the state unchanged. -/
theorem no_uncaught_exception (g : String) (s : App.Session) (sj : AppJS.Session)
    (e : Event) (d : Parsed) (P : Nat) :
    (∃ r, App.stepE g s e = .ok r) ∧
    (∃ a, App.stepE g s (.serverMessage d) = .ok (s, a)) ∧
    (∃ a, App.stepE g s (.clientMessage P d) = .ok (s, a)) ∧
    (∃ r, AppJS.stepE sj e = .ok r) ∧
    (∃ a, AppJS.stepE sj (.serverMessage d) = .ok (sj, a)) ∧
    (∃ a, AppJS.stepE sj (.clientMessage P d) = .ok (sj, a)) := by
  refine ⟨?_, ?_, ?_, ?_, ?_, ?_⟩
  · cases e <;> exact ⟨_, rfl⟩
  · refine ⟨(App.handleServerMessage s d).2, ?_⟩
    simp only [App.stepE]
    rw [show App.handleServerMessage s d = (s, (App.handleServerMessage s d).2) from
      Prod.ext (App.handleServerMessage_state s d) rfl]
  · refine ⟨(App.handleClientMessage s P d).2, ?_⟩
    simp only [App.stepE]
    rw [show App.handleClientMessage s P d = (s, (App.handleClientMessage s P d).2) from
      Prod.ext (App.handleClientMessage_state s P d) rfl]
  · cases e <;> exact ⟨_, rfl⟩
  · refine ⟨(AppJS.handleServerMessage sj d).2, ?_⟩
    simp only [AppJS.stepE]
    rw [show AppJS.handleServerMessage sj d = (sj, (AppJS.handleServerMessage sj d).2) from
      Prod.ext (AppJS.handleServerMessage_keeps_state sj d) rfl]
  · refine ⟨(AppJS.handleClientMessage sj P d).2, ?_⟩
    simp only [AppJS.stepE]
    rw [show AppJS.handleClientMessage sj P d = (sj, (AppJS.handleClientMessage sj P d).2) from
      Prod.ext (AppJS.handleClientMessage_keeps_state sj P d) rfl]

/-- C10: the duplicated TS and JS `Session` implementations, given the
same signaling URL and started in the same state, are observationally
equivalent: every sequence of admission, message and close events
produces the same resulting session state and sends the same messages
to the same connections. -/
theorem ts_js_equivalent (s : App.Session) (es : List Event)
    (h : s.iceServerUrl = AppJS.iceServerUrl) :
    (AppJS.runTrace (toCore s) es).1 =
      toCore (App.runTrace AppJS.iceServerUrl s es).1 ∧
    (AppJS.runTrace (toCore s) es).2 =
      (App.runTrace AppJS.iceServerUrl s es).2 := by
  rw [equiv_runTrace es s h]
  exact ⟨rfl, rfl⟩

/-- Witness for C10: a concrete trace — coordinator attaches,
participant 1 is admitted, participant 1 sends a payload. -/
theorem ts_js_equivalent_witness :
    (App.Session.init AppJS.iceServerUrl).iceServerUrl = AppJS.iceServerUrl ∧
    ((AppJS.runTrace (toCore (App.Session.init AppJS.iceServerUrl))
        [.serverConnect 10, .clientConnect 11,
         .clientMessage 1 (.value (.obj [("x", .num 1)]))]).1 =
      toCore (App.runTrace AppJS.iceServerUrl (App.Session.init AppJS.iceServerUrl)
        [.serverConnect 10, .clientConnect 11,
         .clientMessage 1 (.value (.obj [("x", .num 1)]))]).1 ∧
     (AppJS.runTrace (toCore (App.Session.init AppJS.iceServerUrl))
        [.serverConnect 10, .clientConnect 11,
         .clientMessage 1 (.value (.obj [("x", .num 1)]))]).2 =
      (App.runTrace AppJS.iceServerUrl (App.Session.init AppJS.iceServerUrl)
        [.serverConnect 10, .clientConnect 11,
         .clientMessage 1 (.value (.obj [("x", .num 1)]))]).2) :=
  ⟨rfl, ts_js_equivalent _ _ rfl⟩
